import Mathlib

/-!
Verification of the timing-path and cone-extraction engine of
`src/gui/src/staGuiInterface.h` (OpenROAD GUI timing interface).

Shallow embedding conventions:
* `odb::dbObject*` / `sta::Pin*` pin identities are modelled as `Nat` handles.
* C++ `float` timing values are modelled as `Rat`: no claim exercises
  floating-point rounding, only assignment, defaulting to zero and order
  comparison of slack values.
* `std::set<const TimingPathNode*> paired_nodes_` is modelled as a
  `Finset Nat` of node identifiers (weak references carry no ownership).
* `std::vector<std::unique_ptr<TimingPathNode>>` is a `List TimingPathNode`.
* Mutating member functions become functions returning the updated record.

Only the class header is present in the sources; the bodies of
`STAGuiInterface::getCone`, `STAGuiInterface::getTimingPaths`,
`STAGuiInterface::getTimingNode`, `TimingPath::populatePath`,
`TimingPath::computeClkEndIndex` and `TimingPath::setSlackOnPathNodes`
live in the missing `staGuiInterface.cpp`; those are modelled from the
specification, and each such definition is marked `Modelled from the spec`.
All inline member functions (constructors, accessors, the one-line
mutators) are translated directly from the header.
-/

namespace StaGui

/-- Per-stage record of a timing path, translated from class
`TimingPathNode` in `staGuiInterface.h` (lines 63-162).  Field names and
order follow the C++ private data members. -/
structure TimingPathNode where
  pin_ : Nat
  stapin_ : Nat
  is_clock_ : Bool
  is_rising_ : Bool
  is_sink_ : Bool
  has_values_ : Bool
  arrival_ : Rat
  delay_ : Rat
  slew_ : Rat
  load_ : Rat
  path_slack_ : Rat
  fanout_ : Int
  paired_nodes_ : Finset Nat
  instance_node_ : Option Nat
deriving DecidableEq

namespace TimingPathNode

/-- The C++ constructor (header lines 66-92): takes the identity and the
optional flag/value arguments, and always initialises `path_slack_ = 0.0`,
`paired_nodes_ = {}`, `instance_node_ = nullptr`. -/
def make (pin stapin : Nat)
    (is_clock : Bool := false) (is_rising : Bool := false)
    (is_sink : Bool := false) (has_values : Bool := false)
    (arrival : Rat := 0) (delay : Rat := 0) (slew : Rat := 0)
    (load : Rat := 0) (fanout : Int := 0) : TimingPathNode :=
  { pin_ := pin
    stapin_ := stapin
    is_clock_ := is_clock
    is_rising_ := is_rising
    is_sink_ := is_sink
    has_values_ := has_values
    arrival_ := arrival
    delay_ := delay
    slew_ := slew
    load_ := load
    path_slack_ := 0
    fanout_ := fanout
    paired_nodes_ := ∅
    instance_node_ := none }

/-- Member `getPin` (header line 110). -/
def getPin (n : TimingPathNode) : Nat := n.pin_

/-- Member `getPinAsSTA` (header line 111). -/
def getPinAsSTA (n : TimingPathNode) : Nat := n.stapin_

/-- Member `isClock` (header line 117). -/
def isClock (n : TimingPathNode) : Bool := n.is_clock_

/-- Member `isRisingEdge` (header line 118). -/
def isRisingEdge (n : TimingPathNode) : Bool := n.is_rising_

/-- Member `isSink` (header line 119). -/
def isSink (n : TimingPathNode) : Bool := n.is_sink_

/-- Member `isSource` (header line 120): `return !is_sink_;`. -/
def isSource (n : TimingPathNode) : Bool := !n.is_sink_

/-- Member `getArrival` (header line 122). -/
def getArrival (n : TimingPathNode) : Rat := n.arrival_

/-- Member `getDelay` (header line 123). -/
def getDelay (n : TimingPathNode) : Rat := n.delay_

/-- Member `getSlew` (header line 124). -/
def getSlew (n : TimingPathNode) : Rat := n.slew_

/-- Member `getLoad` (header line 125). -/
def getLoad (n : TimingPathNode) : Rat := n.load_

/-- Member `setPathSlack` (header line 127): `path_slack_ = value;`. -/
def setPathSlack (n : TimingPathNode) (value : Rat) : TimingPathNode :=
  { n with path_slack_ := value }

/-- Member `getPathSlack` (header line 128). -/
def getPathSlack (n : TimingPathNode) : Rat := n.path_slack_

/-- Member `setFanout` (header line 130): `fanout_ = fanout;`. -/
def setFanout (n : TimingPathNode) (fanout : Int) : TimingPathNode :=
  { n with fanout_ := fanout }

/-- Member `getFanout` (header line 131). -/
def getFanout (n : TimingPathNode) : Int := n.fanout_

/-- Member `hasValues` (header line 133). -/
def hasValues (n : TimingPathNode) : Bool := n.has_values_

/-- Member `addPairedNode` (header line 135): `paired_nodes_.insert(node);` on a
`std::set`, hence set insertion. -/
def addPairedNode (n : TimingPathNode) (node : Nat) : TimingPathNode :=
  { n with paired_nodes_ := insert node n.paired_nodes_ }

/-- Member `clearPairedNodes` (header line 136): `paired_nodes_.clear();`. -/
def clearPairedNodes (n : TimingPathNode) : TimingPathNode :=
  { n with paired_nodes_ := ∅ }

/-- Member `getPairedNodes` (header lines 137-140). -/
def getPairedNodes (n : TimingPathNode) : Finset Nat := n.paired_nodes_

/-- Member `setInstanceNode` (header line 141). -/
def setInstanceNode (n : TimingPathNode) (node : Nat) : TimingPathNode :=
  { n with instance_node_ := some node }

/-- Member `getInstanceNode` (header line 142). -/
def getInstanceNode (n : TimingPathNode) : Option Nat := n.instance_node_

end TimingPathNode

/-- One stage of an externally computed path object: the data the walk in
`populateNodeList` reads from the timing engine for a stage (pin identity,
edge/endpoint flags, arrival/delay/slew/load at the analysis point). -/
structure PathStage where
  pin : Nat
  stapin : Nat
  is_rising : Bool
  is_sink : Bool
  arrival : Rat
  delay : Rat
  slew : Rat
  load : Rat
deriving DecidableEq

/-- An externally computed `sta::Path` as the engine walk observes it:
the ordered data-path stages (source to sink), the launch-clock
propagation stages available when clock expansion is requested, the
path-level timing summary, and whether the path is timing-constrained. -/
structure PathObj where
  stages : List PathStage
  clk_stages : List PathStage
  arrival : Rat
  required : Rat
  slack : Rat
  constrained : Bool
deriving DecidableEq

/-- Aggregate of the two node sequences plus path-level scalars,
translated from class `TimingPath` in `staGuiInterface.h`
(lines 164-225).  Field names follow the C++ private data members. -/
structure TimingPath where
  path_nodes_ : List TimingPathNode
  capture_nodes_ : List TimingPathNode
  start_clk_ : String
  end_clk_ : String
  slack_ : Rat
  path_delay_ : Rat
  arr_time_ : Rat
  req_time_ : Rat
  clk_path_end_index_ : Int
  clk_capture_end_index_ : Int
deriving DecidableEq

namespace TimingPath

/-- Modelled from the spec: the body of the `TimingPath()` constructor is
in the missing `staGuiInterface.cpp`.  Section 4.2 of the spec: indices
carry the "not found" sentinel when no clock-network prefix exists, and a
fresh path has empty node sequences.  Sentinel modelled as `-1`, one less
than any valid index. -/
def mkEmpty : TimingPath :=
  { path_nodes_ := []
    capture_nodes_ := []
    start_clk_ := ""
    end_clk_ := ""
    slack_ := 0
    path_delay_ := 0
    arr_time_ := 0
    req_time_ := 0
    clk_path_end_index_ := -1
    clk_capture_end_index_ := -1 }

/-- Member `getSlack` (header line 178). -/
def getSlack (tp : TimingPath) : Rat := tp.slack_

/-- Member `getClkPathEndIndex` (header line 186). -/
def getClkPathEndIndex (tp : TimingPath) : Int := tp.clk_path_end_index_

/-- Member `getClkCaptureEndIndex` (header line 187). -/
def getClkCaptureEndIndex (tp : TimingPath) : Int := tp.clk_capture_end_index_

/-- Modelled from the spec: the body of the private
`computeClkEndIndex(TimingNodeList&, int&)` is in the missing
`staGuiInterface.cpp`.  Spec 4.2: "scans from the start and records the
index of the last node still flagged as clock-network (i.e., the boundary
before the first data-path node); if no node is clock-flagged, the index
is the not-found sentinel."  The scan stops at the first node with
`isClock() == false`; an all-clock prefix of length `k` yields `k - 1`,
and a leading data node yields the sentinel `-1`. -/
def clkEndIndexOf : List TimingPathNode → Int
  | [] => -1
  | x :: xs => if x.isClock then clkEndIndexOf xs + 1 else -1

/-- Modelled from the spec: the body of the public `computeClkEndIndex()`
is in the missing `staGuiInterface.cpp`.  Spec 4.2: "for both sequences"
the scan records the boundary index, so the launch sequence fills
`clk_path_end_index_` and the capture sequence `clk_capture_end_index_`. -/
def computeClkEndIndex (tp : TimingPath) : TimingPath :=
  { tp with
    clk_path_end_index_ := clkEndIndexOf tp.path_nodes_
    clk_capture_end_index_ := clkEndIndexOf tp.capture_nodes_ }

/-- Modelled from the spec: the body of `setSlackOnPathNodes()` is in the
missing `staGuiInterface.cpp`.  Spec 4.2: "broadcasts the path's slack
value to every node in both sequences"; each node is updated through the
header-inline `setPathSlack`. -/
def setSlackOnPathNodes (tp : TimingPath) : TimingPath :=
  { tp with
    path_nodes_ := tp.path_nodes_.map (fun n => n.setPathSlack tp.slack_)
    capture_nodes_ := tp.capture_nodes_.map (fun n => n.setPathSlack tp.slack_) }

/-- The node a stage of the walked path object turns into: electrical
values are read from the engine for the stage, `is_clock` tells whether
the stage belongs to the reconstructed clock-network prefix. -/
def stageNode (is_clock : Bool) (s : PathStage) : TimingPathNode :=
  TimingPathNode.make s.pin s.stapin is_clock s.is_rising s.is_sink true
    s.arrival s.delay s.slew s.load 0

/-- Modelled from the spec: the body of `populatePath` is in the missing
`staGuiInterface.cpp`.  Spec 4.2: "walks the externally supplied path
object stage by stage (source to sink) and appends one PathNode per stage
to the launch-node sequence ... When `clockExpanded` is requested, the
walk additionally reconstructs the clock-network portion of the path ...
as a prefix of the same sequence, flagging those nodes `isClock()==true`;
otherwise only the data-path stages are emitted." -/
def populatePath (tp : TimingPath) (p : PathObj) (clock_expanded : Bool) :
    TimingPath :=
  let clk_part := if clock_expanded then p.clk_stages.map (stageNode true) else []
  { tp with
    path_nodes_ := tp.path_nodes_ ++ clk_part ++ p.stages.map (stageNode false)
    arr_time_ := p.arrival
    req_time_ := p.required
    slack_ := p.slack }

end TimingPath

/-- The timing-graph adjacency the facade consumes from the engine
(spec 6: "timing-graph adjacency (immediate fanin/fanout pins of a given
pin)"): a finite universe of pins and a directed edge relation,
`adj a b = true` meaning driver `a` drives load `b`. -/
structure TimingGraph where
  pins : Finset Nat
  adj : Nat → Nat → Bool

/-- The same graph with the direction of every edge reversed. -/
def reverseGraph (g : TimingGraph) : TimingGraph :=
  { pins := g.pins, adj := fun a b => g.adj b a }

/-- Per-pin electrical readout the engine may have for a pin
(spec 6: "per-pin, per-corner electrical readout (arrival, slew, load)
and presence/absence of computed values"). -/
structure PinTiming where
  arrival : Rat
  slew : Rat
  load : Rat
  fanout : Int
deriving DecidableEq

/-- Session configuration of class `STAGuiInterface`
(header lines 267-275), with the engine handle left to the operations
that consume it.  Field names follow the C++ data members. -/
structure STAGuiInterface where
  corner_ : Nat
  use_max_ : Bool
  max_path_count_ : Nat
  include_unconstrained_ : Bool
  include_capture_path_ : Bool
deriving DecidableEq

namespace STAGuiInterface

/-- Member `getMaxPathCount` (header line 243). -/
def getMaxPathCount (c : STAGuiInterface) : Nat := c.max_path_count_

/-- Member `isIncludeUnconstrainedPaths` (header line 246). -/
def isIncludeUnconstrainedPaths (c : STAGuiInterface) : Bool :=
  c.include_unconstrained_

/-- Modelled from the spec: the body of `getTimingNode(sta::Pin*)` is in
the missing `staGuiInterface.cpp`.  Spec 4.3: "builds a single standalone
PathNode snapshot for one pin ... reads currently available timing values
for that pin at the configured corner if present (has-values=false if the
engine has no timing computed for it)".  The engine readout is passed as
a partial map from pin to values; absence yields the header constructor's
defaults. -/
def getTimingNode (readout : Nat → Option PinTiming) (pin : Nat) :
    TimingPathNode :=
  match readout pin with
  | none => TimingPathNode.make pin pin
  | some t =>
      TimingPathNode.make pin pin false false false true t.arrival 0 t.slew
        t.load t.fanout

/-- The worst-slack-first order on converted paths: path `a` precedes
path `b` when `a` is at least as bad, i.e. `a`'s slack does not exceed
`b`'s (spec glossary: slack is required minus arrival, "negative
indicates a timing violation", so the worst path is the one of smallest
slack and worst-first is ascending slack). -/
def slackOrder (a b : TimingPath) : Prop := a.slack_ ≤ b.slack_

instance : DecidableRel slackOrder := fun a b =>
  inferInstanceAs (Decidable (a.slack_ ≤ b.slack_))

instance : IsTotal TimingPath slackOrder :=
  ⟨fun a b => le_total a.slack_ b.slack_⟩

instance : IsTrans TimingPath slackOrder :=
  ⟨fun _ _ _ => le_trans⟩

/-- Worst-slack-first ordering of converted paths (spec 4.3: "returns
them ordered worst-slack-first"). -/
def sortBySlack (l : List TimingPath) : List TimingPath :=
  l.insertionSort slackOrder

/-- Modelled from the spec: the body of `getTimingPaths(from, thrus, to)`
is in the missing `staGuiInterface.cpp`.  Spec 4.3: the engine's path
search produces path objects for the constraints; "Paths are excluded if
they fail the unconstrained filter when `includeUnconstrainedPaths` is
false"; each survivor is converted into a `TimingPath` via `populatePath`
(4.2); the results are "ordered worst-slack-first, truncated to the
configured maximum count".  The engine's answer to the pin-set
constraints is passed in as the list `found`. -/
def getTimingPaths (c : STAGuiInterface) (found : List PathObj) :
    List TimingPath :=
  let kept := found.filter (fun p => c.include_unconstrained_ || p.constrained)
  let converted := kept.map (fun p => (TimingPath.mkEmpty.populatePath p false).computeClkEndIndex)
  (sortBySlack converted).take c.max_path_count_

/-- Pins an element of the frontier reaches in one step: the immediate
drivers (fanin) or loads (fanout) of `p` inside the graph, restricted to
the bounding set when one is given (spec 4.3, `getCone`). -/
def coneNeighbors (g : TimingGraph) (bound : Option (Finset Nat))
    (is_fanin : Bool) (p : Nat) : Finset Nat :=
  g.pins.filter fun q =>
    (if is_fanin then g.adj q p else g.adj p q) &&
      (match bound with
       | none => true
       | some s => decide (q ∈ s))

/-- Modelled from the spec: the body of `getCone` is in the missing
`staGuiInterface.cpp`.  Spec 4.3: "Each new frontier is the set of
immediate predecessors/successors of the current frontier not already
visited at any depth; traversal terminates when a frontier is empty
(graph boundary reached) — there is no depth cap, so termination relies
on the traversal never revisiting a pin."  This is the loop after the
seed was placed at depth 0; it emits each non-empty frontier under the
next depth key. -/
def coneLoop (g : TimingGraph) (bound : Option (Finset Nat))
    (is_fanin : Bool) (visited frontier : Finset Nat) (depth : Nat) :
    List (Nat × Finset Nat) :=
  let next := frontier.biUnion (coneNeighbors g bound is_fanin) \ visited
  if next = ∅ then []
  else
    (depth + 1, next) ::
      coneLoop g bound is_fanin (visited ∪ next) next (depth + 1)
termination_by (g.pins \ visited).card
decreasing_by
  rename_i h
  apply Finset.card_lt_card
  rw [Finset.ssubset_iff_of_subset]
  · obtain ⟨x, hx⟩ := Finset.nonempty_iff_ne_empty.mpr h
    have hx' := Finset.mem_sdiff.mp hx
    obtain ⟨a, _, hxa⟩ := Finset.mem_biUnion.mp hx'.1
    refine ⟨x, Finset.mem_sdiff.mpr ⟨(Finset.mem_filter.mp hxa).1, hx'.2⟩, ?_⟩
    intro hmem
    exact (Finset.mem_sdiff.mp hmem).2 (Finset.mem_union_right _ hx)
  · intro x hx
    have hx' := Finset.mem_sdiff.mp hx
    exact Finset.mem_sdiff.mpr
      ⟨hx'.1, fun hv => hx'.2 (Finset.mem_union_left _ hv)⟩

/-- Modelled from the spec: the body of `getCone(pin, pin_set, is_fanin)`
is in the missing `staGuiInterface.cpp`.  Spec 4.3: breadth-first
traversal "starting from `pin` at depth 0", the shared primitive behind
`getFaninCone` and `getFanoutCone`; the depth map is the association list
from depth to the pin set discovered at that depth. -/
def getCone (g : TimingGraph) (pin : Nat) (bound : Option (Finset Nat))
    (is_fanin : Bool) : List (Nat × Finset Nat) :=
  (0, {pin}) :: coneLoop g bound is_fanin {pin} {pin} 0

/-- Member `getFaninCone` (header line 262); modelled from the spec: its body in
the missing `staGuiInterface.cpp` calls `getCone` unbounded with the
fanin direction (spec 4.3). -/
def getFaninCone (g : TimingGraph) (_c : STAGuiInterface) (pin : Nat) :
    List (Nat × Finset Nat) :=
  getCone g pin none true

/-- Member `getFanoutCone` (header line 263); modelled from the spec: its body
in the missing `staGuiInterface.cpp` calls `getCone` unbounded with the
fanout direction (spec 4.3). -/
def getFanoutCone (g : TimingGraph) (_c : STAGuiInterface) (pin : Nat) :
    List (Nat × Finset Nat) :=
  getCone g pin none false

end STAGuiInterface

end StaGui

namespace StaGui

/-- The clock/data boundary property the spec states for an index `i`
over a node sequence: every node at a position up to `i` is clock-flagged,
the node right after position `i` (when it exists) is not, and a sequence
with no clock-flagged node yields the sentinel `-1`. -/
def clkBoundarySpec (nodes : List TimingPathNode) (i : Int) : Prop :=
  (∀ j : Nat, (j : Int) ≤ i → ∀ n, nodes[j]? = some n → n.isClock = true) ∧
  (∀ n, nodes[(i + 1).toNat]? = some n → n.isClock = false) ∧
  ((∀ n ∈ nodes, n.isClock = false) → i = -1)

/-- A concrete analysis session used by the closed-instance theorems. -/
def cfgEx : STAGuiInterface :=
  { corner_ := 0
    use_max_ := true
    max_path_count_ := 10
    include_unconstrained_ := true
    include_capture_path_ := false }

/-- A concrete path stage used by the closed-instance theorems. -/
def stageEx : PathStage :=
  { pin := 0, stapin := 0, is_rising := false, is_sink := false,
    arrival := 0, delay := 0, slew := 0, load := 0 }

/-- A concrete constrained path object of slack `0`. -/
def pathObjA : PathObj :=
  { stages := [stageEx], clk_stages := [], arrival := 0, required := 0,
    slack := 0, constrained := true }

/-- A concrete constrained path object of slack `-1` (a violation, hence
the worse of the two). -/
def pathObjB : PathObj :=
  { stages := [stageEx], clk_stages := [], arrival := 0, required := -1,
    slack := -1, constrained := true }

/-- A concrete path object with exactly three data stages and no clock
stages. -/
def pathObjC : PathObj :=
  { stages := [stageEx, stageEx, stageEx], clk_stages := [], arrival := 0,
    required := 0, slack := 0, constrained := true }

/-- The boundary scan never yields anything below the sentinel. -/
lemma clkEndIndexOf_ge_neg_one (l : List TimingPathNode) :
    -1 ≤ TimingPath.clkEndIndexOf l := by
  induction l with
  | nil => simp [TimingPath.clkEndIndexOf]
  | cons x xs ih =>
      simp only [TimingPath.clkEndIndexOf]
      split <;> omega

/-- The boundary scan satisfies the clock/data boundary property. -/
lemma clkEndIndexOf_boundary (l : List TimingPathNode) :
    clkBoundarySpec l (TimingPath.clkEndIndexOf l) := by
  induction l with
  | nil =>
      refine ⟨?_, ?_, fun _ => rfl⟩
      · intro j hj n hn
        simp at hn
      · intro n hn
        simp at hn
  | cons x xs ih =>
      obtain ⟨ih1, ih2, _⟩ := ih
      by_cases hx : x.isClock = true
      · have hK : TimingPath.clkEndIndexOf (x :: xs)
            = TimingPath.clkEndIndexOf xs + 1 := by
          simp [TimingPath.clkEndIndexOf, hx]
        have hge := clkEndIndexOf_ge_neg_one xs
        refine ⟨?_, ?_, ?_⟩
        · intro j hj n hn
          cases j with
          | zero =>
              rw [List.getElem?_cons_zero] at hn
              cases hn
              exact hx
          | succ k =>
              rw [List.getElem?_cons_succ] at hn
              refine ih1 k ?_ n hn
              rw [hK] at hj
              push_cast at hj ⊢
              omega
        · intro n hn
          rw [hK] at hn
          have htn : (TimingPath.clkEndIndexOf xs + 1 + 1).toNat
              = (TimingPath.clkEndIndexOf xs + 1).toNat + 1 := by omega
          rw [htn, List.getElem?_cons_succ] at hn
          exact ih2 n hn
        · intro hall
          exact absurd (hall x (by simp)) (by simp [hx])
      · have hx' : x.isClock = false := by
          simpa using hx
        have hK : TimingPath.clkEndIndexOf (x :: xs) = -1 := by
          simp [TimingPath.clkEndIndexOf, hx']
        refine ⟨?_, ?_, fun _ => hK⟩
        · intro j hj n hn
          rw [hK] at hj
          exfalso
          omega
        · intro n hn
          rw [hK] at hn
          norm_num at hn
          cases hn
          exact hx'

/-- C8: for every TimingPathNode, at every point in its lifetime,
`isSource()` returns the negation of `isSink()`; no operation can make
both true or both false. -/
theorem isSource_negation_of_isSink (n : TimingPathNode) :
    n.isSource = !n.isSink := rfl

/-- C9: `setPathSlack` and `setFanout` each mutate only their own field:
after `setPathSlack(v)` every other observable accessor returns the same
value as before the call, and symmetrically for `setFanout(f)`. -/
theorem setPathSlack_setFanout_frame (n : TimingPathNode) (v : Rat) (f : Int) :
    ((n.setPathSlack v).getPin = n.getPin ∧
     (n.setPathSlack v).isClock = n.isClock ∧
     (n.setPathSlack v).isRisingEdge = n.isRisingEdge ∧
     (n.setPathSlack v).isSink = n.isSink ∧
     (n.setPathSlack v).hasValues = n.hasValues ∧
     (n.setPathSlack v).getArrival = n.getArrival ∧
     (n.setPathSlack v).getDelay = n.getDelay ∧
     (n.setPathSlack v).getSlew = n.getSlew ∧
     (n.setPathSlack v).getLoad = n.getLoad ∧
     (n.setPathSlack v).getFanout = n.getFanout ∧
     (n.setPathSlack v).getPairedNodes = n.getPairedNodes ∧
     (n.setPathSlack v).getInstanceNode = n.getInstanceNode) ∧
    ((n.setFanout f).getPin = n.getPin ∧
     (n.setFanout f).isClock = n.isClock ∧
     (n.setFanout f).isRisingEdge = n.isRisingEdge ∧
     (n.setFanout f).isSink = n.isSink ∧
     (n.setFanout f).hasValues = n.hasValues ∧
     (n.setFanout f).getArrival = n.getArrival ∧
     (n.setFanout f).getDelay = n.getDelay ∧
     (n.setFanout f).getSlew = n.getSlew ∧
     (n.setFanout f).getLoad = n.getLoad ∧
     (n.setFanout f).getPathSlack = n.getPathSlack ∧
     (n.setFanout f).getPairedNodes = n.getPairedNodes ∧
     (n.setFanout f).getInstanceNode = n.getInstanceNode) :=
  ⟨⟨rfl, rfl, rfl, rfl, rfl, rfl, rfl, rfl, rfl, rfl, rfl, rfl⟩,
   ⟨rfl, rfl, rfl, rfl, rfl, rfl, rfl, rfl, rfl, rfl, rfl, rfl⟩⟩

/-- C10: the paired-node collection has set semantics: `addPairedNode` is
idempotent and `clearPairedNodes` empties the set. -/
theorem addPairedNode_set_semantics (n : TimingPathNode) (x : Nat) :
    ((n.addPairedNode x).addPairedNode x).getPairedNodes
        = (n.addPairedNode x).getPairedNodes ∧
    n.clearPairedNodes.getPairedNodes = ∅ := by
  refine ⟨?_, rfl⟩
  simp [TimingPathNode.addPairedNode, TimingPathNode.getPairedNodes]

/-- C6: `setSlackOnPathNodes` is idempotent: calling it twice leaves
every node in both sequences with exactly the same path-slack value as
calling it once. -/
theorem setSlackOnPathNodes_idempotent (tp : TimingPath) :
    (tp.setSlackOnPathNodes.setSlackOnPathNodes).path_nodes_.map
        TimingPathNode.getPathSlack
      = tp.setSlackOnPathNodes.path_nodes_.map TimingPathNode.getPathSlack ∧
    (tp.setSlackOnPathNodes.setSlackOnPathNodes).capture_nodes_.map
        TimingPathNode.getPathSlack
      = tp.setSlackOnPathNodes.capture_nodes_.map TimingPathNode.getPathSlack := by
  constructor <;>
    simp [TimingPath.setSlackOnPathNodes, TimingPathNode.setPathSlack,
      TimingPathNode.getPathSlack, List.map_map, Function.comp]

/-- C2: `computeClkEndIndex` sets each end index so that every node up to
it is clock-flagged, the next node (when it exists) is not, and a
sequence with no clock-flagged node gets the sentinel; this holds for the
launch sequence and the capture sequence. -/
theorem computeClkEndIndex_boundary (tp : TimingPath) :
    clkBoundarySpec tp.path_nodes_ tp.computeClkEndIndex.getClkPathEndIndex ∧
    clkBoundarySpec tp.capture_nodes_
      tp.computeClkEndIndex.getClkCaptureEndIndex :=
  ⟨clkEndIndexOf_boundary tp.path_nodes_,
   clkEndIndexOf_boundary tp.capture_nodes_⟩

/-- C7: `getTimingNode` on a pin with no computed timing returns a node
with `hasValues() == false` and default-zero electrical fields. -/
theorem getTimingNode_no_values (readout : Nat → Option PinTiming)
    (pin : Nat) (h : readout pin = none) :
    (STAGuiInterface.getTimingNode readout pin).hasValues = false ∧
    (STAGuiInterface.getTimingNode readout pin).getArrival = 0 ∧
    (STAGuiInterface.getTimingNode readout pin).getDelay = 0 ∧
    (STAGuiInterface.getTimingNode readout pin).getSlew = 0 ∧
    (STAGuiInterface.getTimingNode readout pin).getLoad = 0 ∧
    (STAGuiInterface.getTimingNode readout pin).getFanout = 0 := by
  simp [STAGuiInterface.getTimingNode, h, TimingPathNode.make,
    TimingPathNode.hasValues, TimingPathNode.getArrival,
    TimingPathNode.getDelay, TimingPathNode.getSlew, TimingPathNode.getLoad,
    TimingPathNode.getFanout]

/-- C7 witness: the no-values hypothesis discharged at the everywhere-empty
readout and pin 0. -/
theorem getTimingNode_no_values_witness :
    ((fun _ : Nat => (none : Option PinTiming)) 0 = none) ∧
    ((STAGuiInterface.getTimingNode (fun _ => none) 0).hasValues = false ∧
     (STAGuiInterface.getTimingNode (fun _ => none) 0).getArrival = 0 ∧
     (STAGuiInterface.getTimingNode (fun _ => none) 0).getDelay = 0 ∧
     (STAGuiInterface.getTimingNode (fun _ => none) 0).getSlew = 0 ∧
     (STAGuiInterface.getTimingNode (fun _ => none) 0).getLoad = 0 ∧
     (STAGuiInterface.getTimingNode (fun _ => none) 0).getFanout = 0) :=
  ⟨rfl, getTimingNode_no_values (fun _ => none) 0 rfl⟩

/-- C5: a path object with exactly 3 data stages, populated with clock
expansion disabled, yields 3 launch nodes, no capture nodes, and the
sentinel clock-path-end-index after `computeClkEndIndex`. -/
theorem populatePath_three_data_stages (p : PathObj)
    (h : p.stages.length = 3) :
    ((TimingPath.mkEmpty.populatePath p false).computeClkEndIndex).path_nodes_.length = 3 ∧
    ((TimingPath.mkEmpty.populatePath p false).computeClkEndIndex).capture_nodes_ = [] ∧
    ((TimingPath.mkEmpty.populatePath p false).computeClkEndIndex).getClkPathEndIndex = -1 := by
  obtain ⟨s1, rest, hs⟩ : ∃ s1 rest, p.stages = s1 :: rest := by
    cases hps : p.stages with
    | nil => rw [hps] at h; simp at h
    | cons a l => exact ⟨a, l, rfl⟩
  refine ⟨?_, rfl, ?_⟩
  · simp [TimingPath.computeClkEndIndex, TimingPath.populatePath,
      TimingPath.mkEmpty, h]
  · simp [TimingPath.computeClkEndIndex, TimingPath.populatePath,
      TimingPath.mkEmpty, TimingPath.getClkPathEndIndex, hs,
      TimingPath.clkEndIndexOf, TimingPath.stageNode, TimingPathNode.isClock,
      TimingPathNode.make]

/-- C5 witness: the three-stage hypothesis discharged at the concrete
three-stage path object. -/
theorem populatePath_three_data_stages_witness :
    pathObjC.stages.length = 3 ∧
    (((TimingPath.mkEmpty.populatePath pathObjC false).computeClkEndIndex).path_nodes_.length = 3 ∧
     ((TimingPath.mkEmpty.populatePath pathObjC false).computeClkEndIndex).capture_nodes_ = [] ∧
     ((TimingPath.mkEmpty.populatePath pathObjC false).computeClkEndIndex).getClkPathEndIndex = -1) :=
  ⟨rfl, populatePath_three_data_stages pathObjC rfl⟩

/-- Every frontier the loop emits sits strictly below its depth key's
predecessor and is disjoint from everything already visited; moreover the
emitted entries are pairwise key-increasing and set-disjoint. -/
lemma coneLoop_invariant (g : TimingGraph) (bound : Option (Finset Nat))
    (is_fanin : Bool) (visited frontier : Finset Nat) (depth : Nat) :
    (∀ e ∈ STAGuiInterface.coneLoop g bound is_fanin visited frontier depth,
        depth < e.1 ∧ Disjoint e.2 visited) ∧
    (STAGuiInterface.coneLoop g bound is_fanin visited frontier depth).Pairwise
      (fun a b => a.1 < b.1 ∧ Disjoint a.2 b.2) := by
  induction visited, frontier, depth
    using STAGuiInterface.coneLoop.induct g bound is_fanin with
  | case1 visited frontier depth next hnext =>
      have h0 : frontier.biUnion (STAGuiInterface.coneNeighbors g bound is_fanin)
          \ visited = ∅ := hnext
      rw [STAGuiInterface.coneLoop.eq_def]
      simp [h0]
  | case2 visited frontier depth next hnext ih =>
      have h0 : ¬ frontier.biUnion (STAGuiInterface.coneNeighbors g bound is_fanin)
          \ visited = ∅ := hnext
      have ih' :
          (∀ e ∈ STAGuiInterface.coneLoop g bound is_fanin
              (visited ∪ (frontier.biUnion
                (STAGuiInterface.coneNeighbors g bound is_fanin) \ visited))
              (frontier.biUnion
                (STAGuiInterface.coneNeighbors g bound is_fanin) \ visited)
              (depth + 1),
            depth + 1 < e.1 ∧
              Disjoint e.2 (visited ∪ (frontier.biUnion
                (STAGuiInterface.coneNeighbors g bound is_fanin) \ visited))) ∧
          (STAGuiInterface.coneLoop g bound is_fanin
              (visited ∪ (frontier.biUnion
                (STAGuiInterface.coneNeighbors g bound is_fanin) \ visited))
              (frontier.biUnion
                (STAGuiInterface.coneNeighbors g bound is_fanin) \ visited)
              (depth + 1)).Pairwise
            (fun a b => a.1 < b.1 ∧ Disjoint a.2 b.2) := ih
      rw [STAGuiInterface.coneLoop.eq_def]
      simp only [h0, if_false, ite_false]
      constructor
      · intro e he
        rcases List.mem_cons.mp he with he1 | he2
        · subst he1
          exact ⟨Nat.lt_succ_self depth, Finset.sdiff_disjoint⟩
        · obtain ⟨h1, h2⟩ := ih'.1 e he2
          exact ⟨lt_trans (Nat.lt_succ_self depth) h1,
            (Finset.disjoint_union_right.mp h2).1⟩
      · rw [List.pairwise_cons]
        refine ⟨?_, ih'.2⟩
        intro e he
        obtain ⟨h1, h2⟩ := ih'.1 e he
        exact ⟨h1, ((Finset.disjoint_union_right.mp h2).2).symm⟩

/-- The full depth map returned by the shared traversal primitive: depth
0 holds exactly the seed, and sets under distinct depth keys are
disjoint. -/
lemma getCone_depth_map_inv (g : TimingGraph) (pin : Nat)
    (bound : Option (Finset Nat)) (is_fanin : Bool) :
    (((0 : Nat), ({pin} : Finset Nat))
        ∈ STAGuiInterface.getCone g pin bound is_fanin) ∧
    (∀ s, ((0 : Nat), s) ∈ STAGuiInterface.getCone g pin bound is_fanin →
        s = {pin}) ∧
    (∀ d1 s1 d2 s2,
        (d1, s1) ∈ STAGuiInterface.getCone g pin bound is_fanin →
        (d2, s2) ∈ STAGuiInterface.getCone g pin bound is_fanin →
        d1 ≠ d2 → Disjoint s1 s2) := by
  have hinv := coneLoop_invariant g bound is_fanin {pin} {pin} 0
  refine ⟨List.mem_cons_self _ _, ?_, ?_⟩
  · intro s hs
    rcases List.mem_cons.mp hs with h1 | h2
    · exact ((Prod.mk.injEq _ _ _ _).mp h1).2
    · exact absurd ((hinv.1 _ h2).1) (by simp)
  · have hpw : (STAGuiInterface.getCone g pin bound is_fanin).Pairwise
        (fun a b => a.1 < b.1 ∧ Disjoint a.2 b.2) := by
      unfold STAGuiInterface.getCone
      rw [List.pairwise_cons]
      refine ⟨?_, hinv.2⟩
      intro e he
      exact ⟨(hinv.1 e he).1, ((hinv.1 e he).2).symm⟩
    have hsym : Symmetric
        (fun a b : Nat × Finset Nat => a.1 ≠ b.1 → Disjoint a.2 b.2) := by
      intro a b hab hne
      exact (hab (Ne.symm hne)).symm
    have hfa := (hpw.imp (fun h _ => h.2)).forall hsym
    intro d1 s1 d2 s2 h1 h2 hne
    exact hfa h1 h2 (fun he => hne (congrArg Prod.fst he)) hne

/-- C1: for every pin, both `getFaninCone` and `getFanoutCone` return a
depth map whose depth-0 entry is exactly the seed pin, and in which no
pin is recorded under two different depth keys. -/
theorem cone_depth_zero_and_no_revisit (g : TimingGraph)
    (c : STAGuiInterface) (pin : Nat) :
    ((((0 : Nat), ({pin} : Finset Nat))
        ∈ STAGuiInterface.getFaninCone g c pin) ∧
     (∀ s, ((0 : Nat), s) ∈ STAGuiInterface.getFaninCone g c pin →
        s = {pin}) ∧
     (∀ d1 s1 d2 s2,
        (d1, s1) ∈ STAGuiInterface.getFaninCone g c pin →
        (d2, s2) ∈ STAGuiInterface.getFaninCone g c pin →
        d1 ≠ d2 → Disjoint s1 s2)) ∧
    ((((0 : Nat), ({pin} : Finset Nat))
        ∈ STAGuiInterface.getFanoutCone g c pin) ∧
     (∀ s, ((0 : Nat), s) ∈ STAGuiInterface.getFanoutCone g c pin →
        s = {pin}) ∧
     (∀ d1 s1 d2 s2,
        (d1, s1) ∈ STAGuiInterface.getFanoutCone g c pin →
        (d2, s2) ∈ STAGuiInterface.getFanoutCone g c pin →
        d1 ≠ d2 → Disjoint s1 s2)) :=
  ⟨getCone_depth_map_inv g pin none true, getCone_depth_map_inv g pin none false⟩

/-- One-step neighborhoods agree between the fanout view of a graph and
the fanin view of its reversal. -/
lemma coneNeighbors_reverse (g : TimingGraph) (bound : Option (Finset Nat))
    (p : Nat) :
    STAGuiInterface.coneNeighbors (reverseGraph g) bound true p
      = STAGuiInterface.coneNeighbors g bound false p := rfl

/-- The frontier loop agrees between the fanout view of a graph and the
fanin view of its reversal. -/
lemma coneLoop_reverse (g : TimingGraph) (bound : Option (Finset Nat))
    (visited frontier : Finset Nat) (depth : Nat) :
    STAGuiInterface.coneLoop (reverseGraph g) bound true visited frontier depth
      = STAGuiInterface.coneLoop g bound false visited frontier depth := by
  have hEq : STAGuiInterface.coneNeighbors (reverseGraph g) bound true
      = STAGuiInterface.coneNeighbors g bound false :=
    funext (coneNeighbors_reverse g bound)
  induction visited, frontier, depth
    using STAGuiInterface.coneLoop.induct g bound false with
  | case1 visited frontier depth next hnext =>
      have h0 : frontier.biUnion (STAGuiInterface.coneNeighbors g bound false)
          \ visited = ∅ := hnext
      rw [STAGuiInterface.coneLoop.eq_def, STAGuiInterface.coneLoop.eq_def]
      simp only [hEq, h0, ite_true, if_true]
  | case2 visited frontier depth next hnext ih =>
      have h0 : ¬ frontier.biUnion (STAGuiInterface.coneNeighbors g bound false)
          \ visited = ∅ := hnext
      have ih' :
          STAGuiInterface.coneLoop (reverseGraph g) bound true
              (visited ∪ (frontier.biUnion
                (STAGuiInterface.coneNeighbors g bound false) \ visited))
              (frontier.biUnion
                (STAGuiInterface.coneNeighbors g bound false) \ visited)
              (depth + 1)
            = STAGuiInterface.coneLoop g bound false
              (visited ∪ (frontier.biUnion
                (STAGuiInterface.coneNeighbors g bound false) \ visited))
              (frontier.biUnion
                (STAGuiInterface.coneNeighbors g bound false) \ visited)
              (depth + 1) := ih
      rw [STAGuiInterface.coneLoop.eq_def, STAGuiInterface.coneLoop.eq_def]
      simp only [hEq, h0, if_false, ite_false]
      rw [ih']

/-- C4: for every pin and timing graph, the fanout cone on the graph
equals the fanin cone on the graph with every edge direction reversed. -/
theorem getFanoutCone_eq_fanin_of_reverse (g : TimingGraph)
    (c : STAGuiInterface) (pin : Nat) :
    STAGuiInterface.getFanoutCone g c pin
      = STAGuiInterface.getFaninCone (reverseGraph g) c pin := by
  unfold STAGuiInterface.getFanoutCone STAGuiInterface.getFaninCone
    STAGuiInterface.getCone
  rw [coneLoop_reverse]

/-- Worst-first sorting yields ascending slack. -/
lemma sortBySlack_sorted (l : List TimingPath) :
    (STAGuiInterface.sortBySlack l).Pairwise STAGuiInterface.slackOrder :=
  List.sorted_insertionSort STAGuiInterface.slackOrder l

/-- C3 counterexample: at a concrete session (max-path-count 10,
unconstrained paths included) and two concrete constrained path objects
of slacks 0 and -1, the returned slacks are `[-1, 0]` — the worst path
first — so the slack values are strictly increasing, refuting the claimed
non-increasing ordering. -/
theorem getTimingPaths_nonincreasing_refuted :
    (cfgEx.getTimingPaths [pathObjA, pathObjB]).map TimingPath.getSlack
        = [-1, 0] ∧
    ¬ (cfgEx.getTimingPaths [pathObjA, pathObjB]).Pairwise
        (fun a b => b.getSlack ≤ a.getSlack) := by
  constructor
  · rfl
  · decide

/-- C3 as the code model supports it: `getTimingPaths` returns at most
the configured max-path-count results, and their slack values are
non-decreasing from first to last — the worst (most negative) slack
first. -/
theorem getTimingPaths_count_and_order (c : STAGuiInterface)
    (found : List PathObj) :
    (c.getTimingPaths found).length ≤ c.getMaxPathCount ∧
    (c.getTimingPaths found).Pairwise
      (fun a b => a.getSlack ≤ b.getSlack) := by
  constructor
  · exact List.length_take_le _ _
  · exact ((sortBySlack_sorted _).sublist (List.take_sublist _ _)).imp
      (fun h => h)

end StaGui
